import Mathlib

/-!
# RabbitMqClient: a shallow embedding of `utility/rabbitmqclient/rabbitmqclient.cpp`

The client is a thin layer over the rabbitmq-c library.  The library itself is an
external collaborator, so every library primitive is modelled by

* an *answer* supplied from outside (a field of a `...Lib` record), and
* an entry appended to the list of primitive invocations (`Call`), in program order.

The member functions become pure functions from the client state and the library
answers to the returned value, the new client state and the invocations made.
Calls to the logger have no effect on any of these and are left out; the place of
each is kept as a comment.
-/

namespace RabbitMqClient

/-! ## Data model -/

/-- A C pointer; `nullptr` is address zero. -/
abbrev Ptr := Nat

/-- The null pointer. -/
def nullptr : Ptr := 0

/-- Value `AMQP_RESPONSE_NONE` of `amqp_response_type_enum` (rabbitmq-c, `amqp.h`). -/
def AMQP_RESPONSE_NONE : Int := 0
/-- Value `AMQP_RESPONSE_NORMAL` of `amqp_response_type_enum` (rabbitmq-c, `amqp.h`). -/
def AMQP_RESPONSE_NORMAL : Int := 1
/-- Value `AMQP_RESPONSE_LIBRARY_EXCEPTION` of `amqp_response_type_enum`. -/
def AMQP_RESPONSE_LIBRARY_EXCEPTION : Int := 2
/-- Value `AMQP_RESPONSE_SERVER_EXCEPTION` of `amqp_response_type_enum`. -/
def AMQP_RESPONSE_SERVER_EXCEPTION : Int := 3
/-- Value `AMQP_STATUS_OK` of `amqp_status_enum` (rabbitmq-c, `amqp.h`). -/
def AMQP_STATUS_OK : Int := 0
/-- Method number of `basic.get-ok`, class 60 method 71 (`amqp_framing.h`). -/
def AMQP_BASIC_GET_OK_METHOD : Int := 0x003C0047
/-- Method number of `basic.get-empty`, class 60 method 72 (`amqp_framing.h`). -/
def AMQP_BASIC_GET_EMPTY_METHOD : Int := 0x003C0048

/-- The library type `amqp_rpc_reply_t`: the reply type, the method id `reply.id`, what
the code reads of `reply.decoded` (the delivery tag of a `basic.get-ok`), and the
library error number. -/
structure amqp_rpc_reply_t where
  reply_type : Int
  reply_id : Int
  decoded_delivery_tag : Nat
  library_error : Int
  deriving DecidableEq, Repr

/-- The library type `amqp_bytes_t`: a length and the memory found at the pointer. -/
structure amqp_bytes_t where
  len : Nat
  bytes : Nat → Char

/-- The conversion `std::string((char *)b.bytes, (char *)b.bytes + b.len)`: the bytes
at offsets `0 .. len - 1`, in order. -/
def toStdString (b : amqp_bytes_t) : String :=
  String.mk ((List.range b.len).map b.bytes)

/-- Modelled from the spec: the class of the member `r_store` is declared outside
`rabbitmqclient.cpp`; the spec calls it InternalQueue, "an in-process FIFO of decoded
payloads", "unbounded", with a "blocking pop".  The content is kept front first. -/
structure InternalQueue where
  items : List String
  deriving DecidableEq, Repr

/-- Modelled from the spec: `r_store.enqueue(x)` puts `x` at the back of the FIFO. -/
def InternalQueue.enqueue (q : InternalQueue) (x : String) : InternalQueue :=
  ⟨q.items ++ [x]⟩

/-- Modelled from the spec: `r_store.dequeue(msg, true)` takes the front item out and
reports `true`; on an empty FIFO the blocking pop does not return, which is `none`. -/
def InternalQueue.dequeue (q : InternalQueue) : Option (String × InternalQueue) :=
  match q.items with
  | [] => none
  | x :: rest => some (x, ⟨rest⟩)

/-- The data members of `RabbitMqClient`. -/
structure Client where
  m_hostname : String
  m_port : Int
  m_username : String
  m_password : String
  m_conn : Ptr
  m_channel : Nat
  r_store : InternalQueue
  deriving DecidableEq, Repr

/-- The constructor: `m_conn(nullptr)`, `m_channel(1)`. -/
def Client.new (hostname : String) (port : Int) (user password : String) : Client :=
  { m_hostname := hostname, m_port := port, m_username := user, m_password := password,
    m_conn := nullptr, m_channel := 1, r_store := ⟨[]⟩ }

/-- One invocation of a library primitive, with the arguments that vary. -/
inductive Call where
  | amqp_new_connection
  | amqp_tcp_socket_new (conn : Ptr)
  | amqp_socket_open (socket : Ptr) (host : String) (port : Int)
  | amqp_login (conn : Ptr) (user password : String)
  | amqp_channel_open (conn : Ptr) (channel : Nat)
  | amqp_channel_close (conn : Ptr) (channel : Nat)
  | amqp_connection_close (conn : Ptr)
  | amqp_destroy_connection (conn : Ptr)
  | amqp_basic_publish (conn : Ptr) (channel : Nat) (exchange routing_key body : String)
  | amqp_get_rpc_reply (conn : Ptr)
  | amqp_basic_get (conn : Ptr) (channel : Nat) (queue : String) (no_ack : Bool)
  | amqp_read_message (conn : Ptr) (channel : Nat)
  | amqp_basic_ack (conn : Ptr) (channel : Nat) (delivery_tag : Nat)
  | amqp_basic_consume (conn : Ptr) (channel : Nat) (queue : String) (no_ack : Bool)
  | amqp_consume_message (conn : Ptr)
  | amqp_destroy_envelope
  deriving DecidableEq, Repr

/-- What a member function leaves behind: the returned value, the client state and the
library primitives it invoked, oldest first. -/
structure Outcome (α : Type) where
  ret : α
  client : Client
  calls : List Call
  deriving DecidableEq, Repr

/-! ## `errorMsg` -/

/-- `RabbitMqClient::errorMsg`: the `switch` on `reply.reply_type`.  Only the first
case returns inside the `switch`; every other case logs (or not) and breaks to the
final `return -1`. -/
def errorMsg (reply : amqp_rpc_reply_t) (_desc : String) : Int :=
  if reply.reply_type = AMQP_RESPONSE_NORMAL then 0
  else if reply.reply_type = AMQP_RESPONSE_NONE then -1               -- log_error; break
  else if reply.reply_type = AMQP_RESPONSE_LIBRARY_EXCEPTION then -1  -- log_error; break
  else if reply.reply_type = AMQP_RESPONSE_SERVER_EXCEPTION then -1   -- log_error; break
  else -1                                                             -- default: break

/-! ## `connect` -/

/-- The answers of the library to the primitives `connect` may invoke. -/
structure ConnectLib where
  amqp_new_connection : Ptr
  amqp_tcp_socket_new : Ptr
  amqp_socket_open : Int
  amqp_login : amqp_rpc_reply_t
  amqp_channel_open : Ptr
  deriving DecidableEq, Repr

/-- `RabbitMqClient::connect`. -/
def connect (c : Client) (lib : ConnectLib) : Outcome Int :=
  if c.m_hostname.isEmpty || decide (c.m_port ≤ 0) || c.m_username.isEmpty
      || c.m_password.isEmpty then
    ⟨-1, c, []⟩
  else
    let c1 : Client := { c with m_conn := lib.amqp_new_connection }
    let t1 := [Call.amqp_new_connection]
    if c1.m_conn = nullptr then ⟨-2, c1, t1⟩
    else
      let m_socket := lib.amqp_tcp_socket_new
      let t2 := t1 ++ [Call.amqp_tcp_socket_new c1.m_conn]
      if m_socket = nullptr then ⟨-3, c1, t2⟩
      else
        let isOpenSocket := lib.amqp_socket_open
        let t3 := t2 ++ [Call.amqp_socket_open m_socket c1.m_hostname c1.m_port]
        if isOpenSocket < 0 then ⟨-4, c1, t3⟩
        else
          let isLogin := errorMsg lib.amqp_login "建立连接"
          let t4 := t3 ++ [Call.amqp_login c1.m_conn c1.m_username c1.m_password]
          if isLogin < 0 then ⟨-5, c1, t4⟩
          else
            let isOpenChannel := lib.amqp_channel_open
            let t5 := t4 ++ [Call.amqp_channel_open c1.m_conn c1.m_channel]
            if isOpenChannel = nullptr then ⟨-6, c1, t5⟩
            else ⟨0, c1, t5⟩

/-! ## `disconnect` -/

/-- The answers of the library to the primitives `disconnect` may invoke. -/
structure DisconnectLib where
  amqp_channel_close : amqp_rpc_reply_t
  amqp_connection_close : amqp_rpc_reply_t
  amqp_destroy_connection : Int
  deriving DecidableEq, Repr

/-- `RabbitMqClient::disconnect`. -/
def disconnect (c : Client) (lib : DisconnectLib) : Outcome Int :=
  if c.m_conn ≠ nullptr then
    let ret := errorMsg lib.amqp_channel_close "关闭通道"
    let t1 := [Call.amqp_channel_close c.m_conn c.m_channel]
    if ret < 0 then ⟨ret, c, t1⟩
    else
      let ret := errorMsg lib.amqp_connection_close "关闭连接"
      let t2 := t1 ++ [Call.amqp_connection_close c.m_conn]
      if ret < 0 then ⟨ret, c, t2⟩
      else
        let ret := lib.amqp_destroy_connection
        let t3 := t2 ++ [Call.amqp_destroy_connection c.m_conn]
        if ret < 0 then ⟨ret, c, t3⟩
        else ⟨0, { c with m_conn := nullptr }, t3⟩
  else
    ⟨-4, c, []⟩

/-- A run of successive `disconnect()` calls on one client, one library answer per
call: the codes returned, the final client state and all primitives invoked. -/
def disconnectAll : Client → List DisconnectLib → Outcome (List Int)
  | c, [] => ⟨[], c, []⟩
  | c, lib :: libs =>
    let r := disconnect c lib
    let rs := disconnectAll r.client libs
    ⟨r.ret :: rs.ret, rs.client, r.calls ++ rs.calls⟩

/-! ## `publish` -/

/-- The class `CMessage` as far as `publish` reads it. -/
structure CMessage where
  m_data : String
  m_mandatory : Bool
  m_immediate : Bool
  deriving DecidableEq, Repr

/-- The answers of the library to the primitives `publish` may invoke. -/
structure PublishLib where
  amqp_basic_publish : Int
  amqp_get_rpc_reply : amqp_rpc_reply_t
  deriving DecidableEq, Repr

/-- `RabbitMqClient::publish`. -/
def publish (c : Client) (exchange_name routing_key_name : String) (message : CMessage)
    (lib : PublishLib) : Outcome Int :=
  let ret := lib.amqp_basic_publish
  let t1 := [Call.amqp_basic_publish c.m_conn c.m_channel exchange_name routing_key_name
    message.m_data]
  if ret ≠ AMQP_STATUS_OK then
    -- log_error
    ⟨errorMsg lib.amqp_get_rpc_reply "发布消息", c, t1 ++ [Call.amqp_get_rpc_reply c.m_conn]⟩
  else
    ⟨0, c, t1⟩

/-! ## `get` (batch) -/

/-- The answers of the library inside one turn of the loop of `get`: the reply of
`amqp_basic_get`, and what `amqp_read_message` returns and stores in `amqp_msg.body`
(consulted only when the turn gets that far). -/
structure GetAnswers where
  amqp_basic_get : amqp_rpc_reply_t
  amqp_read_message : amqp_rpc_reply_t
  amqp_msg_body : amqp_bytes_t

/-- The local state of `get`: the vector `ret_msg` and the primitives invoked so far. -/
structure GetState where
  ret_msg : List String
  calls : List Call
  deriving DecidableEq, Repr

/-- The loop `while (num--) ...` of the batch `get`.  The first argument is the value
of `num` seen as an unsigned 32-bit number: the test `num--` fails exactly at zero and
each turn takes one off.  `iter` counts the turns already made and selects the library
answers of this turn. -/
def getLoop (c : Client) (queue_name : String) (no_ack : Bool) (lib : Nat → GetAnswers) :
    Nat → Nat → GetState → GetState
  | 0, _, st => st
  | num + 1, iter, st =>
    let replyGet := (lib iter).amqp_basic_get
    let t1 := st.calls ++ [Call.amqp_basic_get c.m_conn c.m_channel queue_name no_ack]
    let retGetMsg := errorMsg replyGet "Get message"
    if retGetMsg < 0 then ⟨st.ret_msg, t1⟩
    else if replyGet.reply_id = AMQP_BASIC_GET_OK_METHOD then
      -- case AMQP_BASIC_GET_OK_METHOD: tip = replyGet.reply.decoded; break
      let tip_delivery_tag := replyGet.decoded_delivery_tag
      let retReadMsg := errorMsg (lib iter).amqp_read_message "Read message"
      let t2 := t1 ++ [Call.amqp_read_message c.m_conn c.m_channel]
      if retReadMsg < 0 then ⟨st.ret_msg, t2⟩
      else
        let ret_msg := st.ret_msg ++ [toStdString (lib iter).amqp_msg_body]
        let t3 := if no_ack = false then
            t2 ++ [Call.amqp_basic_ack c.m_conn c.m_channel tip_delivery_tag]
          else t2
        getLoop c queue_name no_ack lib num (iter + 1) ⟨ret_msg, t3⟩
    else if replyGet.reply_id = AMQP_BASIC_GET_EMPTY_METHOD then
      ⟨st.ret_msg, t1⟩  -- case AMQP_BASIC_GET_EMPTY_METHOD: log_info; return ret_msg
    else ⟨st.ret_msg, t1⟩  -- default: log_error; return ret_msg

/-- `RabbitMqClient::get(queue_name, num, no_ack)`.  `num` is a C `int`, a value from
`-2147483648` to `2147483647`; the loop counter is its 32-bit two-complement pattern, so
a negative `num` is non-zero and counts down through the wrap-around. -/
def get (c : Client) (queue_name : String) (num : Int) (no_ack : Bool)
    (lib : Nat → GetAnswers) : Outcome (List String) :=
  let st := getLoop c queue_name no_ack lib (num % 4294967296).toNat 0 ⟨[], []⟩
  ⟨st.ret_msg, c, st.calls⟩

/-- How often the body of the loop of `get` was entered: every turn starts with one
`amqp_basic_get`, and nothing else invokes it. -/
def loopTurns (calls : List Call) : Nat :=
  (calls.filter fun x => match x with
    | Call.amqp_basic_get _ _ _ _ => true
    | _ => false).length

/-- The delivery tags acknowledged in a list of invocations, oldest first. -/
def ackedTags (calls : List Call) : List Nat :=
  calls.filterMap fun x => match x with
    | Call.amqp_basic_ack _ _ tag => some tag
    | _ => none

/-- A turn of the loop of `get` that does not stop the loop: the poll is classified as
success, answers `basic.get-ok`, and the read of the body is classified as success. -/
def turnDelivers (a : GetAnswers) : Bool :=
  decide (¬ errorMsg a.amqp_basic_get "Get message" < 0)
    && decide (a.amqp_basic_get.reply_id = AMQP_BASIC_GET_OK_METHOD)
    && decide (¬ errorMsg a.amqp_read_message "Read message" < 0)

/-- The number of leading indices `i < n` at which `p` holds: the smaller of `n` and
the position of the first index where `p` fails. -/
def leadingCount (p : Nat → Bool) : Nat → Nat
  | 0 => 0
  | n + 1 => if leadingCount p n = n && p n then n + 1 else leadingCount p n

/-- The library function `amqp_cstring_bytes`: the length of the string and a pointer to
its characters; what lies past the end reads as NUL. -/
def amqp_cstring_bytes (cstr : String) : amqp_bytes_t :=
  ⟨cstr.length, fun k => cstr.data.getD k (Char.ofNat 0)⟩

/-- Modelled from the spec: the broker is outside the repository; its queue is an
"ordered buffer holding messages until consumed", and the poll of an empty queue answers
"queue empty".  A broker holding the messages `msgs` (delivery tag and body, oldest
first) in the polled queue: poll number `i` answers `basic.get-ok` with message `i`
while there is one, and `basic.get-empty` afterwards; every reply is a normal
response. -/
def queueHolding (msgs : List (Nat × String)) (i : Nat) : GetAnswers :=
  match msgs.get? i with
  | some (tag, body) =>
    { amqp_basic_get := ⟨AMQP_RESPONSE_NORMAL, AMQP_BASIC_GET_OK_METHOD, tag, 0⟩,
      amqp_read_message := ⟨AMQP_RESPONSE_NORMAL, 0, 0, 0⟩,
      amqp_msg_body := amqp_cstring_bytes body }
  | none =>
    { amqp_basic_get := ⟨AMQP_RESPONSE_NORMAL, AMQP_BASIC_GET_EMPTY_METHOD, 0, 0⟩,
      amqp_read_message := ⟨AMQP_RESPONSE_NONE, 0, 0, 0⟩,
      amqp_msg_body := amqp_cstring_bytes "" }

/-- The primitives invoked by a turn of the loop of `get` that delivers. -/
def deliveringTurnCalls (c : Client) (queue_name : String) (no_ack : Bool)
    (a : GetAnswers) : List Call :=
  [Call.amqp_basic_get c.m_conn c.m_channel queue_name no_ack,
    Call.amqp_read_message c.m_conn c.m_channel] ++
  (if no_ack = false then
    [Call.amqp_basic_ack c.m_conn c.m_channel a.amqp_basic_get.decoded_delivery_tag]
   else [])

/-- The primitives invoked by a turn of the loop of `get` that stops the loop. -/
def stoppingTurnCalls (c : Client) (queue_name : String) (no_ack : Bool)
    (a : GetAnswers) : List Call :=
  [Call.amqp_basic_get c.m_conn c.m_channel queue_name no_ack] ++
  (if a.amqp_basic_get.reply_type = AMQP_RESPONSE_NORMAL
      ∧ a.amqp_basic_get.reply_id = AMQP_BASIC_GET_OK_METHOD then
    [Call.amqp_read_message c.m_conn c.m_channel]
   else [])

/-- The number of turns of the loop of `get` that deliver, for the count `num`. -/
def deliveredCount (num : Int) (lib : Nat → GetAnswers) : Nat :=
  leadingCount (fun i => turnDelivers (lib i)) (num % 4294967296).toNat

/-! ## `consume_listen` and `consume` -/

/-- The answers of the library to one `amqp_consume_message` of the receiver: the
reply, and the envelope it fills in. -/
structure ConsumeAnswers where
  amqp_consume_message : amqp_rpc_reply_t
  envelope_delivery_tag : Nat
  envelope_message_body : amqp_bytes_t

/-- The answers of the library to the primitives the receiver may invoke; `waits i` is
answered to the wait of turn `i` of the `for(;;)` loop. -/
structure ListenLib where
  amqp_basic_consume : Ptr
  amqp_get_rpc_reply : amqp_rpc_reply_t
  waits : Nat → ConsumeAnswers

/-- A broker that accepts the consumer, delivers "M1" with tag 1 and "M2" with tag 2,
and answers every later wait with a library exception (the timeout, status -13). -/
def twoDeliveriesThenTimeout : ListenLib :=
  { amqp_basic_consume := 5,
    amqp_get_rpc_reply := ⟨AMQP_RESPONSE_NORMAL, 0, 0, 0⟩,
    waits := fun i =>
      match i with
      | 0 => ⟨⟨AMQP_RESPONSE_NORMAL, 0, 0, 0⟩, 1, amqp_cstring_bytes "M1"⟩
      | 1 => ⟨⟨AMQP_RESPONSE_NORMAL, 0, 0, 0⟩, 2, amqp_cstring_bytes "M2"⟩
      | _ => ⟨⟨AMQP_RESPONSE_LIBRARY_EXCEPTION, 0, 0, -13⟩, 0, amqp_cstring_bytes ""⟩ }

/-- Where the thread started by `consume_listen` stands: before the consumer is
created, at the head of turn `iter` of the `for(;;)` loop, or past the `catch`, where
the lambda ends. -/
inductive ReceiverPc where
  | setup
  | waiting (iter : Nat)
  | exited
  deriving DecidableEq, Repr

/-- The client together with the receiver thread and the foreground caller: the
position of the thread, the shared client object, the primitives the thread invoked,
and the messages handed out by the `consume()` calls that returned, oldest first. -/
structure Listening where
  pc : ReceiverPc
  client : Client
  calls : List Call
  consumed : List String
  deriving DecidableEq, Repr

/-- `RabbitMqClient::consume_listen`: the thread is created and detached; nothing of
its body has run yet.  The captured `queue_name` and `no_ack` are arguments of
`receiverStep`; the captured `timeout` is only handed to the library. -/
def consume_listen (c : Client) : Listening :=
  ⟨ReceiverPc.setup, c, [], []⟩

/-- One step of the body of the thread of `consume_listen`: the creation of the
consumer, or one whole turn of the `for(;;)` loop.  Both `throw`s land in the `catch`,
which logs and lets the lambda end. -/
def receiverStep (queue_name : String) (no_ack : Bool) (lib : ListenLib)
    (s : Listening) : Listening :=
  match s.pc with
  | ReceiverPc.setup =>
    let retBasicConsume := lib.amqp_basic_consume
    let t1 := s.calls ++
      [Call.amqp_basic_consume s.client.m_conn s.client.m_channel queue_name no_ack]
    if retBasicConsume = nullptr then
      -- errorMsg(amqp_get_rpc_reply(m_conn), "Consumer basic"); throw
      { s with pc := ReceiverPc.exited,
               calls := t1 ++ [Call.amqp_get_rpc_reply s.client.m_conn] }
    else { s with pc := ReceiverPc.waiting 0, calls := t1 }
  | ReceiverPc.waiting iter =>
    let isConsume := errorMsg (lib.waits iter).amqp_consume_message "Consume message"
    let t1 := s.calls ++ [Call.amqp_consume_message s.client.m_conn]
    if isConsume < 0 then
      -- log_error; throw
      { s with pc := ReceiverPc.exited, calls := t1 }
    else
      let r_store := s.client.r_store.enqueue
        (toStdString (lib.waits iter).envelope_message_body)
      let t2 := if no_ack = false then
          t1 ++ [Call.amqp_basic_ack s.client.m_conn s.client.m_channel
            (lib.waits iter).envelope_delivery_tag]
        else t1
      { s with pc := ReceiverPc.waiting (iter + 1),
               client := { s.client with r_store := r_store },
               calls := t2 ++ [Call.amqp_destroy_envelope] }
  | ReceiverPc.exited => s

/-- `RabbitMqClient::consume(msg, block)`: `r_store.dequeue(msg, true)`, whatever
`block` is.  The result is the returned flag, `msg` and the client; `none` when the pop
blocks on the empty store. -/
def consume (c : Client) (_block : Bool) : Option (Bool × String × Client) :=
  match c.r_store.dequeue with
  | none => none
  | some (msg, rest) => some (true, msg, { c with r_store := rest })

/-- Who moves next: the receiver thread or the foreground caller of `consume()`. -/
inductive Turn where
  | receiver
  | consumer
  deriving DecidableEq, Repr

/-- One move of the interleaved execution.  A `consume()` that finds the store empty
stays blocked and changes nothing. -/
def Listening.step (queue_name : String) (no_ack : Bool) (lib : ListenLib)
    (s : Listening) : Turn → Listening
  | Turn.receiver => receiverStep queue_name no_ack lib s
  | Turn.consumer =>
    match consume s.client true with
    | none => s
    | some (_, msg, c) => { s with client := c, consumed := s.consumed ++ [msg] }

/-- The interleaved execution along a schedule. -/
def Listening.run (queue_name : String) (no_ack : Bool) (lib : ListenLib)
    (s : Listening) (schedule : List Turn) : Listening :=
  schedule.foldl (Listening.step queue_name no_ack lib) s

/-- A wait of the receiver that is classified as success. -/
def waitDelivers (a : ConsumeAnswers) : Bool :=
  decide (¬ errorMsg a.amqp_consume_message "Consume message" < 0)

/-- The number of deliveries the receiver has enqueued after `steps` steps of its own:
none when the consumer could not be created, else one per turn of the loop made before
the first wait classified as failure. -/
def deliveredAfter (lib : ListenLib) (steps : Nat) : Nat :=
  if lib.amqp_basic_consume = nullptr then 0
  else leadingCount (fun i => waitDelivers (lib.waits i)) (steps - 1)

/-- `k` successive `consume()` calls on a client: the messages handed out, in call
order, and the client afterwards; `none` as soon as one call blocks. -/
def consumeTimes : Nat → Client → Option (List String × Client)
  | 0, c => some ([], c)
  | k + 1, c =>
    match consume c true with
    | none => none
    | some (_, msg, c1) =>
      match consumeTimes k c1 with
      | none => none
      | some (msgs, c2) => some (msg :: msgs, c2)

/-- Where the receiver stands after `steps` steps of its own. -/
def pcAfter (lib : ListenLib) (steps : Nat) : ReceiverPc :=
  if steps = 0 then ReceiverPc.setup
  else if lib.amqp_basic_consume = nullptr then ReceiverPc.exited
  else if leadingCount (fun i => waitDelivers (lib.waits i)) (steps - 1) = steps - 1 then
    ReceiverPc.waiting (steps - 1)
  else ReceiverPc.exited

/-- The bodies of the first `d` deliveries, in delivery order. -/
def deliveredBodies (lib : ListenLib) (d : Nat) : List String :=
  (List.range d).map (fun i => toStdString (lib.waits i).envelope_message_body)

/-- What holds of the interleaved execution after the receiver made `steps` steps: the
receiver stands where `pcAfter` says, and the messages handed out followed by the
content of the store are the initial content followed by the bodies delivered so far. -/
def ListeningInv (lib : ListenLib) (initial : List String) (s : Listening) (steps : Nat) :
    Prop :=
  s.pc = pcAfter lib steps ∧
  s.consumed ++ s.client.r_store.items
    = initial ++ deliveredBodies lib (deliveredAfter lib steps)

/-! ## The stages of `connect` -/

/-- The stages of `connect` in program order: the parameter check and the five steps. -/
inductive Stage where
  | parameter
  | allocation
  | socket
  | transportConnect
  | login
  | channelOpen
  deriving DecidableEq, Repr

/-- The position of a stage in the chain. -/
def Stage.rank : Stage → Nat
  | parameter => 0
  | allocation => 1
  | socket => 2
  | transportConnect => 3
  | login => 4
  | channelOpen => 5

/-- The failure code the spec assigns to a stage. -/
def Stage.code : Stage → Int
  | parameter => -1
  | allocation => -2
  | socket => -3
  | transportConnect => -4
  | login => -5
  | channelOpen => -6

/-- What it means for a stage to fail, each stage on its own: a required field is
empty or the port is not positive; the allocator, the socket constructor or the channel
open hand back a null pointer; the socket open reports a negative status; the login
reply is not the normal response. -/
def Stage.fails (c : Client) (lib : ConnectLib) : Stage → Prop
  | parameter => c.m_hostname = "" ∨ c.m_port ≤ 0 ∨ c.m_username = "" ∨ c.m_password = ""
  | allocation => lib.amqp_new_connection = nullptr
  | socket => lib.amqp_tcp_socket_new = nullptr
  | transportConnect => lib.amqp_socket_open < 0
  | login => lib.amqp_login.reply_type ≠ AMQP_RESPONSE_NORMAL
  | channelOpen => lib.amqp_channel_open = nullptr

instance Stage.decidableFails (c : Client) (lib : ConnectLib) (s : Stage) :
    Decidable (Stage.fails c lib s) := by
  cases s <;> unfold Stage.fails <;> infer_instance

/-- The stage a library primitive belongs to, for the primitives of `connect`. -/
def Call.stage : Call → Option Stage
  | Call.amqp_new_connection => some Stage.allocation
  | Call.amqp_tcp_socket_new _ => some Stage.socket
  | Call.amqp_socket_open _ _ _ => some Stage.transportConnect
  | Call.amqp_login _ _ _ => some Stage.login
  | Call.amqp_channel_open _ _ => some Stage.channelOpen
  | _ => none

end RabbitMqClient

namespace RabbitMqClient

/-! ## The reply classifier -/

theorem errorMsg_eq (reply : amqp_rpc_reply_t) (desc : String) :
    errorMsg reply desc = if reply.reply_type = AMQP_RESPONSE_NORMAL then 0 else -1 := by
  unfold errorMsg
  by_cases h : reply.reply_type = AMQP_RESPONSE_NORMAL <;> simp [h]

theorem errorMsg_neg_iff (reply : amqp_rpc_reply_t) (desc : String) :
    errorMsg reply desc < 0 ↔ reply.reply_type ≠ AMQP_RESPONSE_NORMAL := by
  rw [errorMsg_eq]
  by_cases h : reply.reply_type = AMQP_RESPONSE_NORMAL <;> simp [h]

/-- C5: `errorMsg` is a total function of the reply type alone.  It returns 0 when the
reply type is the normal response and -1 for every other reply type: none, library
exception, server exception and any value outside the enumeration.  Two replies of the
same type are classified alike whatever their payload and whatever the description. -/
theorem errorMsg_depends_on_reply_type_only :
    (∀ (reply : amqp_rpc_reply_t) (desc : String),
        (reply.reply_type = AMQP_RESPONSE_NORMAL → errorMsg reply desc = 0) ∧
        (reply.reply_type ≠ AMQP_RESPONSE_NORMAL → errorMsg reply desc = -1)) ∧
    (∀ (id err : Int) (tag : Nat) (desc : String),
        errorMsg ⟨AMQP_RESPONSE_NONE, id, tag, err⟩ desc = -1 ∧
        errorMsg ⟨AMQP_RESPONSE_LIBRARY_EXCEPTION, id, tag, err⟩ desc = -1 ∧
        errorMsg ⟨AMQP_RESPONSE_SERVER_EXCEPTION, id, tag, err⟩ desc = -1) ∧
    (∀ (r1 r2 : amqp_rpc_reply_t) (d1 d2 : String),
        r1.reply_type = r2.reply_type → errorMsg r1 d1 = errorMsg r2 d2) := by
  refine ⟨fun reply desc => ⟨fun h => ?_, fun h => ?_⟩, fun id err tag desc => ?_,
    fun r1 r2 d1 d2 h => ?_⟩
  · rw [errorMsg_eq, if_pos h]
  · rw [errorMsg_eq, if_neg h]
  · simp [errorMsg_eq, AMQP_RESPONSE_NONE, AMQP_RESPONSE_NORMAL,
      AMQP_RESPONSE_LIBRARY_EXCEPTION, AMQP_RESPONSE_SERVER_EXCEPTION]
  · rw [errorMsg_eq, errorMsg_eq, h]

/-! ## `connect` -/

theorem connect_parameter_check (c : Client) (lib : ConnectLib) :
    (c.m_hostname.isEmpty || decide (c.m_port ≤ 0) || c.m_username.isEmpty
      || c.m_password.isEmpty) = true ↔ Stage.fails c lib Stage.parameter := by
  simp [Stage.fails, String.isEmpty_iff, or_assoc]

theorem connect_bad_parameters (c : Client) (lib : ConnectLib)
    (h : Stage.fails c lib Stage.parameter) : connect c lib = ⟨-1, c, []⟩ := by
  unfold connect
  rw [if_pos ((connect_parameter_check c lib).2 h)]

/-- C1: when the hostname is empty, or the port is not positive, or the username is
empty, or the password is empty, `connect()` returns -1, invokes no library primitive
at all and leaves the client, its connection handle included, as it was. -/
theorem connect_rejects_bad_parameters (c : Client) (lib : ConnectLib)
    (h : c.m_hostname = "" ∨ c.m_port ≤ 0 ∨ c.m_username = "" ∨ c.m_password = "") :
    (connect c lib).ret = -1 ∧ (connect c lib).calls = [] ∧
      (connect c lib).client = c ∧ (connect c lib).client.m_conn = c.m_conn := by
  rw [connect_bad_parameters c lib h]
  exact ⟨rfl, rfl, rfl, rfl⟩

/-- C1 at a client with an empty hostname and a handle already set. -/
theorem connect_rejects_bad_parameters_witness :
    (("" : String) = "" ∨ (5672 : Int) ≤ 0 ∨ "guest" = "" ∨ "guest" = "") ∧
    (connect ⟨"", 5672, "guest", "guest", 7, 1, ⟨[]⟩⟩ ⟨1, 1, 0, ⟨1, 0, 0, 0⟩, 1⟩).ret = -1 ∧
    (connect ⟨"", 5672, "guest", "guest", 7, 1, ⟨[]⟩⟩ ⟨1, 1, 0, ⟨1, 0, 0, 0⟩, 1⟩).calls = [] ∧
    (connect ⟨"", 5672, "guest", "guest", 7, 1, ⟨[]⟩⟩ ⟨1, 1, 0, ⟨1, 0, 0, 0⟩, 1⟩).client
      = ⟨"", 5672, "guest", "guest", 7, 1, ⟨[]⟩⟩ ∧
    (connect ⟨"", 5672, "guest", "guest", 7, 1, ⟨[]⟩⟩
      ⟨1, 1, 0, ⟨1, 0, 0, 0⟩, 1⟩).client.m_conn = 7 :=
  ⟨Or.inl rfl, connect_rejects_bad_parameters
    ⟨"", 5672, "guest", "guest", 7, 1, ⟨[]⟩⟩ ⟨1, 1, 0, ⟨1, 0, 0, 0⟩, 1⟩ (Or.inl rfl)⟩

theorem Stage.forall_iff (P : Stage → Prop) :
    (∀ s : Stage, P s) ↔ P Stage.parameter ∧ P Stage.allocation ∧ P Stage.socket ∧
      P Stage.transportConnect ∧ P Stage.login ∧ P Stage.channelOpen :=
  ⟨fun h => ⟨h _, h _, h _, h _, h _, h _⟩,
   fun ⟨h0, h1, h2, h3, h4, h5⟩ s => by cases s <;> assumption⟩

theorem Stage.code_injective (s s0 : Stage) (h : s.code = s0.code) : s = s0 := by
  revert h
  cases s <;> cases s0 <;> simp [Stage.code]

theorem Stage.code_ne_zero (s : Stage) : s.code ≠ 0 := by
  cases s <;> simp [Stage.code]

/-- The value, the client and the invocations of `connect` once the parameter check
has passed, by the first step that fails. -/
theorem connect_cases (c : Client) (lib : ConnectLib)
    (hp : ¬ Stage.fails c lib Stage.parameter) :
    connect c lib =
      if Stage.fails c lib Stage.allocation then
        ⟨-2, { c with m_conn := lib.amqp_new_connection }, [Call.amqp_new_connection]⟩
      else if Stage.fails c lib Stage.socket then
        ⟨-3, { c with m_conn := lib.amqp_new_connection },
          [Call.amqp_new_connection, Call.amqp_tcp_socket_new lib.amqp_new_connection]⟩
      else if Stage.fails c lib Stage.transportConnect then
        ⟨-4, { c with m_conn := lib.amqp_new_connection },
          [Call.amqp_new_connection, Call.amqp_tcp_socket_new lib.amqp_new_connection,
            Call.amqp_socket_open lib.amqp_tcp_socket_new c.m_hostname c.m_port]⟩
      else if Stage.fails c lib Stage.login then
        ⟨-5, { c with m_conn := lib.amqp_new_connection },
          [Call.amqp_new_connection, Call.amqp_tcp_socket_new lib.amqp_new_connection,
            Call.amqp_socket_open lib.amqp_tcp_socket_new c.m_hostname c.m_port,
            Call.amqp_login lib.amqp_new_connection c.m_username c.m_password]⟩
      else if Stage.fails c lib Stage.channelOpen then
        ⟨-6, { c with m_conn := lib.amqp_new_connection },
          [Call.amqp_new_connection, Call.amqp_tcp_socket_new lib.amqp_new_connection,
            Call.amqp_socket_open lib.amqp_tcp_socket_new c.m_hostname c.m_port,
            Call.amqp_login lib.amqp_new_connection c.m_username c.m_password,
            Call.amqp_channel_open lib.amqp_new_connection c.m_channel]⟩
      else
        ⟨0, { c with m_conn := lib.amqp_new_connection },
          [Call.amqp_new_connection, Call.amqp_tcp_socket_new lib.amqp_new_connection,
            Call.amqp_socket_open lib.amqp_tcp_socket_new c.m_hostname c.m_port,
            Call.amqp_login lib.amqp_new_connection c.m_username c.m_password,
            Call.amqp_channel_open lib.amqp_new_connection c.m_channel]⟩ := by
  have hp1 : ¬ (c.m_hostname.isEmpty || decide (c.m_port ≤ 0) || c.m_username.isEmpty
      || c.m_password.isEmpty) = true := fun h => hp ((connect_parameter_check c lib).1 h)
  unfold connect
  rw [if_neg hp1]
  simp only [Stage.fails, errorMsg_neg_iff, List.cons_append, List.nil_append]

set_option maxHeartbeats 1000000 in
/-- C2: `connect()` returns the code of the first stage that failed: it returns the
code of a stage exactly when that stage fails and no earlier one does, and it returns 0
exactly when the parameter check and all five steps succeed.  The six codes are -1, -2,
-3, -4, -5, -6 in stage order, pairwise distinct and none of them 0.  When the code of
a stage is returned, every primitive invoked belongs to a stage not after it, and the
stages whose primitive was invoked are exactly the steps up to that stage, in order,
once each; on success all five primitives are invoked in order. -/
theorem connect_reports_first_failed_stage (c : Client) (lib : ConnectLib) :
    (∀ s : Stage, (connect c lib).ret = s.code ↔
        (Stage.fails c lib s ∧ ∀ s0 : Stage, s0.rank < s.rank → ¬ Stage.fails c lib s0)) ∧
    ((connect c lib).ret = 0 ↔ ∀ s : Stage, ¬ Stage.fails c lib s) ∧
    ([Stage.parameter, Stage.allocation, Stage.socket, Stage.transportConnect, Stage.login,
        Stage.channelOpen].map Stage.code = [-1, -2, -3, -4, -5, -6]) ∧
    (∀ s s0 : Stage, s.code = s0.code → s = s0) ∧
    (∀ s : Stage, s.code ≠ 0) ∧
    (∀ s : Stage, (connect c lib).ret = s.code →
        (∀ x ∈ (connect c lib).calls, ∃ s0, Call.stage x = some s0 ∧ s0.rank ≤ s.rank) ∧
        (connect c lib).calls.map Call.stage =
          ([Stage.allocation, Stage.socket, Stage.transportConnect, Stage.login,
            Stage.channelOpen].filter fun s0 => decide (s0.rank ≤ s.rank)).map some) ∧
    ((connect c lib).ret = 0 →
        (connect c lib).calls.map Call.stage =
          [Stage.allocation, Stage.socket, Stage.transportConnect, Stage.login,
            Stage.channelOpen].map some) := by
  by_cases hp : Stage.fails c lib Stage.parameter
  · rw [connect_bad_parameters c lib hp]
    refine ⟨?_, ?_, rfl, Stage.code_injective, Stage.code_ne_zero, ?_, ?_⟩
    · intro s
      cases s <;> simp [Stage.code, Stage.rank, Stage.forall_iff, hp]
    · simp [Stage.forall_iff, hp]
    · intro s
      cases s <;> simp [Stage.code, Stage.rank]
    · simp
  · have hc := connect_cases c lib hp
    generalize connect c lib = r at hc ⊢
    have hl : [Stage.parameter, Stage.allocation, Stage.socket, Stage.transportConnect,
        Stage.login, Stage.channelOpen].map Stage.code = [-1, -2, -3, -4, -5, -6] := rfl
    split_ifs at hc with h1 h2 h3 h4 h5
    all_goals subst hc
    all_goals exact
      ⟨fun s => by cases s <;> simp [Stage.code, Stage.rank, Stage.forall_iff, *],
       by simp [Stage.forall_iff, *],
       hl, Stage.code_injective, Stage.code_ne_zero,
       fun s => by cases s <;> simp [Stage.code, Stage.rank, Call.stage],
       by simp [Call.stage]⟩

/-! ## `disconnect` -/

theorem disconnect_without_handle (c : Client) (lib : DisconnectLib)
    (h : c.m_conn = nullptr) : disconnect c lib = ⟨-4, c, []⟩ := by
  unfold disconnect
  rw [if_neg (not_not.2 h)]

theorem disconnect_zero_releases (c : Client) (lib : DisconnectLib)
    (h : (disconnect c lib).ret = 0) : (disconnect c lib).client.m_conn = nullptr := by
  unfold disconnect at h ⊢
  simp only [errorMsg_eq] at h ⊢
  by_cases h0 : c.m_conn = nullptr
  · simp [h0] at h
  · by_cases h1 : lib.amqp_channel_close.reply_type = AMQP_RESPONSE_NORMAL <;>
    by_cases h2 : lib.amqp_connection_close.reply_type = AMQP_RESPONSE_NORMAL <;>
    by_cases h3 : lib.amqp_destroy_connection < 0 <;>
    simp [h0, h1, h2, h3] at h ⊢
    omega

theorem disconnectAll_without_handle (c : Client) (h : c.m_conn = nullptr) :
    ∀ libs : List DisconnectLib,
      disconnectAll c libs = ⟨List.replicate libs.length (-4), c, []⟩
  | [] => rfl
  | lib :: libs => by
    simp only [disconnectAll, disconnect_without_handle c lib h,
      disconnectAll_without_handle c h libs, List.length_cons, List.replicate_succ,
      List.append_nil]

/-- C3: after a `connect()` that returned 0 and a `disconnect()` that returned 0, every
further `disconnect()` returns -4, invokes no library primitive and leaves the client
unchanged: this holds for one further call under any library answers, and for any run
of further calls, whose codes are all -4. -/
theorem disconnect_after_disconnect_is_noop (c : Client) (clib : ConnectLib)
    (dlib : DisconnectLib)
    (hconnect : (connect c clib).ret = 0)
    (hdisconnect : (disconnect (connect c clib).client dlib).ret = 0) :
    (∀ lib : DisconnectLib,
        disconnect (disconnect (connect c clib).client dlib).client lib
          = ⟨-4, (disconnect (connect c clib).client dlib).client, []⟩) ∧
    (∀ libs : List DisconnectLib,
        disconnectAll (disconnect (connect c clib).client dlib).client libs
          = ⟨List.replicate libs.length (-4),
              (disconnect (connect c clib).client dlib).client, []⟩) :=
  have _ := hconnect
  ⟨fun lib => disconnect_without_handle _ lib (disconnect_zero_releases _ dlib hdisconnect),
   disconnectAll_without_handle _ (disconnect_zero_releases _ dlib hdisconnect)⟩

/-- C3 at a client that connects and disconnects with success, followed by two further
calls of `disconnect()` under different library answers. -/
theorem disconnect_after_disconnect_is_noop_witness :
    (connect (Client.new "localhost" 5672 "guest" "guest")
        ⟨7, 9, 0, ⟨1, 0, 0, 0⟩, 11⟩).ret = 0 ∧
    (disconnect (connect (Client.new "localhost" 5672 "guest" "guest")
        ⟨7, 9, 0, ⟨1, 0, 0, 0⟩, 11⟩).client ⟨⟨1, 0, 0, 0⟩, ⟨1, 0, 0, 0⟩, 0⟩).ret = 0 ∧
    disconnectAll (disconnect (connect (Client.new "localhost" 5672 "guest" "guest")
        ⟨7, 9, 0, ⟨1, 0, 0, 0⟩, 11⟩).client ⟨⟨1, 0, 0, 0⟩, ⟨1, 0, 0, 0⟩, 0⟩).client
        [⟨⟨1, 0, 0, 0⟩, ⟨1, 0, 0, 0⟩, 0⟩, ⟨⟨3, 0, 0, 0⟩, ⟨2, 0, 0, 0⟩, -9⟩]
      = ⟨[-4, -4], (disconnect (connect (Client.new "localhost" 5672 "guest" "guest")
        ⟨7, 9, 0, ⟨1, 0, 0, 0⟩, 11⟩).client ⟨⟨1, 0, 0, 0⟩, ⟨1, 0, 0, 0⟩, 0⟩).client, []⟩ :=
  ⟨by decide, by decide,
   (disconnect_after_disconnect_is_noop (Client.new "localhost" 5672 "guest" "guest")
      ⟨7, 9, 0, ⟨1, 0, 0, 0⟩, 11⟩ ⟨⟨1, 0, 0, 0⟩, ⟨1, 0, 0, 0⟩, 0⟩ (by decide) (by decide)).2
      [⟨⟨1, 0, 0, 0⟩, ⟨1, 0, 0, 0⟩, 0⟩, ⟨⟨3, 0, 0, 0⟩, ⟨2, 0, 0, 0⟩, -9⟩]⟩

/-- C4, as stated, fails: a client that holds a connection handle, with both closes
answered by a normal reply and `amqp_destroy_connection` reporting the status -4, gets
-4 from `disconnect()` although it held a handle. -/
theorem disconnect_minus_four_with_handle :
    ¬ ((disconnect ⟨"localhost", 5672, "guest", "guest", 7, 1, ⟨[]⟩⟩
          ⟨⟨1, 0, 0, 0⟩, ⟨1, 0, 0, 0⟩, -4⟩).ret = -4 ↔
        (Client.mk "localhost" 5672 "guest" "guest" 7 1 ⟨[]⟩).m_conn = nullptr) := by
  decide

/-- C4, amended: `disconnect()` returns -4 exactly when the client held no connection
handle, or held one and, after both closes were classified as success, the release
primitive `amqp_destroy_connection` itself reported -4, which is passed through. -/
theorem disconnect_minus_four_iff (c : Client) (lib : DisconnectLib) :
    (disconnect c lib).ret = -4 ↔
      (c.m_conn = nullptr ∨
        (c.m_conn ≠ nullptr ∧
          lib.amqp_channel_close.reply_type = AMQP_RESPONSE_NORMAL ∧
          lib.amqp_connection_close.reply_type = AMQP_RESPONSE_NORMAL ∧
          lib.amqp_destroy_connection = -4)) := by
  unfold disconnect
  simp only [errorMsg_eq]
  by_cases h0 : c.m_conn = nullptr
  · simp [h0]
  · by_cases h1 : lib.amqp_channel_close.reply_type = AMQP_RESPONSE_NORMAL <;>
    by_cases h2 : lib.amqp_connection_close.reply_type = AMQP_RESPONSE_NORMAL <;>
    by_cases h3 : lib.amqp_destroy_connection < 0 <;>
    simp [h0, h1, h2, h3]
    omega

/-! ## `publish` -/

/-- C8, the code at the failing input: the publish primitive reports the socket error
-9, the reply fetched afterwards is a normal one, and `publish` returns 0.  In general
`publish` returns 0 exactly when the immediate status is OK or the reply fetched after a
non-OK status has the normal type. -/
theorem publish_failed_send_returns_zero :
    (PublishLib.mk (-9) ⟨1, 0, 0, 0⟩).amqp_basic_publish ≠ AMQP_STATUS_OK ∧
    (publish (Client.mk "localhost" 5672 "guest" "guest" 7 1 ⟨[]⟩) "orders" "new"
        ⟨"order-1", false, false⟩ ⟨-9, ⟨1, 0, 0, 0⟩⟩).ret = 0 ∧
    (∀ (c : Client) (exchange_name routing_key_name : String) (message : CMessage)
        (lib : PublishLib),
        (publish c exchange_name routing_key_name message lib).ret = 0 ↔
          (lib.amqp_basic_publish = AMQP_STATUS_OK ∨
            lib.amqp_get_rpc_reply.reply_type = AMQP_RESPONSE_NORMAL)) := by
  refine ⟨by decide, by decide, fun c e k m lib => ?_⟩
  unfold publish
  simp only [errorMsg_eq]
  by_cases h1 : lib.amqp_basic_publish = AMQP_STATUS_OK <;>
  by_cases h2 : lib.amqp_get_rpc_reply.reply_type = AMQP_RESPONSE_NORMAL <;>
  simp [h1, h2]

/-! ## Counting the leading successes -/

theorem leadingCount_le (p : Nat → Bool) : ∀ n, leadingCount p n ≤ n
  | 0 => Nat.le_refl 0
  | n + 1 => by
    have ih := leadingCount_le p n
    unfold leadingCount
    split <;> omega

theorem leadingCount_holds (p : Nat → Bool) :
    ∀ n i, i < leadingCount p n → p i = true
  | 0, i, h => by simp [leadingCount] at h
  | n + 1, i, h => by
    have ih := leadingCount_holds p n i
    unfold leadingCount at h
    split at h
    · rename_i hc
      simp only [Bool.and_eq_true, decide_eq_true_eq] at hc
      have hc1 := hc.1
      by_cases hi : i < n
      · exact ih (by omega)
      · have : i = n := by omega
        rw [this]; exact hc.2
    · exact ih h

theorem leadingCount_stops (p : Nat → Bool) :
    ∀ n, leadingCount p n < n → p (leadingCount p n) = false
  | 0, h => by simp [leadingCount] at h
  | n + 1, h => by
    have ih := leadingCount_stops p n
    have hle := leadingCount_le p n
    unfold leadingCount at h ⊢
    split
    · rename_i hc
      rw [if_pos hc] at h
      omega
    · rename_i hc
      simp only [Bool.and_eq_true, decide_eq_true_eq, not_and, Bool.not_eq_true] at hc
      by_cases hn : leadingCount p n = n
      · rw [hn]; exact hc hn
      · exact ih (by omega)

theorem leadingCount_head (p : Nat → Bool) :
    ∀ n, leadingCount p (n + 1) =
      if p 0 then 1 + leadingCount (fun i => p (i + 1)) n else 0
  | 0 => by
    simp [leadingCount]
  | n + 1 => by
    have ih := leadingCount_head p n
    rw [leadingCount, ih]
    by_cases h0 : p 0 = true
    · simp only [h0, if_true]
      rw [leadingCount]
      have hiff : (1 + leadingCount (fun i => p (i + 1)) n = n + 1) ↔
          (leadingCount (fun i => p (i + 1)) n = n) := by omega
      simp only [hiff]
      split <;> omega
    · simp [h0]

/-! ## `get` -/

theorem range_succ_map_head {β : Type} (f : Nat → β) (k : Nat) :
    (List.range (k + 1)).map f = f 0 :: (List.range k).map (fun j => f (j + 1)) := by
  rw [List.range_succ_eq_map, List.map_cons, List.map_map]
  rfl

theorem range_succ_flatMap_head {β : Type} (f : Nat → List β) (k : Nat) :
    (List.range (k + 1)).flatMap f = f 0 ++ (List.range k).flatMap (fun j => f (j + 1)) := by
  rw [List.range_succ_eq_map, List.flatMap_cons, List.flatMap_map]

theorem getLoop_eq (c : Client) (queue_name : String) (no_ack : Bool)
    (lib : Nat → GetAnswers) (num : Nat) :
    ∀ (iter : Nat) (st : GetState) (f : Nat → GetAnswers), (∀ j, f j = lib (iter + j)) →
      getLoop c queue_name no_ack lib num iter st =
        ⟨st.ret_msg ++ (List.range (leadingCount (fun j => turnDelivers (f j)) num)).map
              (fun j => toStdString (f j).amqp_msg_body),
          st.calls ++
            (List.range (leadingCount (fun j => turnDelivers (f j)) num)).flatMap
              (fun j => deliveringTurnCalls c queue_name no_ack (f j)) ++
            (if leadingCount (fun j => turnDelivers (f j)) num < num then
              stoppingTurnCalls c queue_name no_ack
                (f (leadingCount (fun j => turnDelivers (f j)) num))
             else [])⟩ := by
  induction num with
  | zero =>
    intro iter st f _
    show st = _
    simp only [leadingCount, List.range_zero, List.map_nil, List.flatMap_nil,
      List.append_nil, Nat.lt_irrefl, if_false]
  | succ num ih =>
    intro iter st f hf
    have h0 : lib iter = f 0 := by rw [hf 0, Nat.add_zero]
    have hf1 : ∀ j, f (j + 1) = lib (iter + 1 + j) := fun j => by
      rw [hf (j + 1), Nat.add_right_comm, Nat.add_assoc]
    rw [getLoop, leadingCount_head]
    simp only [errorMsg_neg_iff, h0]
    by_cases h1 : (f 0).amqp_basic_get.reply_type = AMQP_RESPONSE_NORMAL
    · by_cases h2 : (f 0).amqp_basic_get.reply_id = AMQP_BASIC_GET_OK_METHOD
      · by_cases h3 : (f 0).amqp_read_message.reply_type = AMQP_RESPONSE_NORMAL
        · have hd : turnDelivers (f 0) = true := by
            simp [turnDelivers, errorMsg_neg_iff, h1, h2, h3]
          simp only [h1, h2, h3, hd, not_true_eq_false, not_false_eq_true, if_true, if_false,
            ne_eq]
          rw [ih (iter + 1) _ (fun j => f (j + 1)) hf1, Nat.add_comm 1,
            range_succ_map_head, range_succ_flatMap_head]
          simp only [Nat.add_lt_add_iff_right, List.append_assoc, List.singleton_append,
            deliveringTurnCalls, List.cons_append, List.nil_append]
          cases no_ack <;> simp
        · have hd : turnDelivers (f 0) = false := by
            simp [turnDelivers, errorMsg_neg_iff, h3]
          simp [h1, h2, h3, hd, leadingCount, stoppingTurnCalls]
      · have hd : turnDelivers (f 0) = false := by
          simp [turnDelivers, errorMsg_neg_iff, h2]
        simp [h1, h2, hd, leadingCount, stoppingTurnCalls]
    · have hd : turnDelivers (f 0) = false := by
        simp [turnDelivers, errorMsg_neg_iff, h1]
      simp [h1, hd, leadingCount, stoppingTurnCalls]


theorem get_eq (c : Client) (queue_name : String) (num : Int) (no_ack : Bool)
    (lib : Nat → GetAnswers) :
    get c queue_name num no_ack lib =
      ⟨(List.range (deliveredCount num lib)).map (fun i => toStdString (lib i).amqp_msg_body),
        c,
        (List.range (deliveredCount num lib)).flatMap
            (fun i => deliveringTurnCalls c queue_name no_ack (lib i)) ++
          (if deliveredCount num lib < (num % 4294967296).toNat then
            stoppingTurnCalls c queue_name no_ack (lib (deliveredCount num lib))
           else [])⟩ := by
  unfold get deliveredCount
  rw [getLoop_eq c queue_name no_ack lib _ 0 ⟨[], []⟩ lib (fun j => by rw [Nat.zero_add])]
  simp only [List.nil_append]

theorem loopTurns_append (a b : List Call) :
    loopTurns (a ++ b) = loopTurns a + loopTurns b := by
  simp [loopTurns]

theorem loopTurns_delivering (c : Client) (queue_name : String) (no_ack : Bool)
    (a : GetAnswers) : loopTurns (deliveringTurnCalls c queue_name no_ack a) = 1 := by
  cases no_ack <;> simp [loopTurns, deliveringTurnCalls]

theorem loopTurns_stopping (c : Client) (queue_name : String) (no_ack : Bool)
    (a : GetAnswers) : loopTurns (stoppingTurnCalls c queue_name no_ack a) = 1 := by
  unfold stoppingTurnCalls
  split <;> simp [loopTurns]

theorem loopTurns_flatMap_range (c : Client) (queue_name : String) (no_ack : Bool)
    (lib : Nat → GetAnswers) :
    ∀ k, loopTurns ((List.range k).flatMap
      (fun i => deliveringTurnCalls c queue_name no_ack (lib i))) = k
  | 0 => by simp [loopTurns]
  | k + 1 => by
    rw [List.range_succ, List.flatMap_append, loopTurns_append,
      loopTurns_flatMap_range c queue_name no_ack lib k]
    simp [loopTurns_delivering]

theorem ackedTags_append (a b : List Call) :
    ackedTags (a ++ b) = ackedTags a ++ ackedTags b := by
  simp [ackedTags]

theorem ackedTags_stopping (c : Client) (queue_name : String) (no_ack : Bool)
    (a : GetAnswers) : ackedTags (stoppingTurnCalls c queue_name no_ack a) = [] := by
  unfold stoppingTurnCalls
  split <;> simp [ackedTags]

theorem ackedTags_flatMap_range (c : Client) (queue_name : String) (no_ack : Bool)
    (lib : Nat → GetAnswers) :
    ∀ k, ackedTags ((List.range k).flatMap
        (fun i => deliveringTurnCalls c queue_name no_ack (lib i))) =
      if no_ack = true then []
      else (List.range k).map (fun i => (lib i).amqp_basic_get.decoded_delivery_tag)
  | 0 => by simp [ackedTags]
  | k + 1 => by
    rw [List.range_succ, List.flatMap_append, ackedTags_append,
      ackedTags_flatMap_range c queue_name no_ack lib k]
    cases no_ack <;> simp [ackedTags, deliveringTurnCalls]

theorem unsigned_of_nonneg (num : Int) (h0 : 0 ≤ num) (h1 : num ≤ 2147483647) :
    ((num % 4294967296).toNat : Int) = num := by
  omega

/-- C6, as stated, fails for a negative count: with `num = -1` and a queue holding three
messages `get` returns three payloads after four turns of the loop, and neither number
is at most -1. -/
theorem get_negative_count_exceeds :
    ¬ (((get (Client.mk "localhost" 5672 "guest" "guest" 7 1 ⟨[]⟩) "orders-q" (-1) false
            (queueHolding [(1, "order-1"), (2, "order-2"), (3, "order-3")])).ret.length : Int)
          ≤ -1) ∧
    ¬ ((loopTurns (get (Client.mk "localhost" 5672 "guest" "guest" 7 1 ⟨[]⟩) "orders-q" (-1)
            false (queueHolding [(1, "order-1"), (2, "order-2"), (3, "order-3")])).calls : Int)
          ≤ -1) ∧
    (get (Client.mk "localhost" 5672 "guest" "guest" 7 1 ⟨[]⟩) "orders-q" (-1) false
        (queueHolding [(1, "order-1"), (2, "order-2"), (3, "order-3")])).ret
      = ["order-1", "order-2", "order-3"] ∧
    loopTurns (get (Client.mk "localhost" 5672 "guest" "guest" 7 1 ⟨[]⟩) "orders-q" (-1) false
        (queueHolding [(1, "order-1"), (2, "order-2"), (3, "order-3")])).calls = 4 := by
  decide

/-- C6, amended: for every queue name, every count `num` with `0 ≤ num ≤ INT_MAX`, every
`no_ack` flag and every sequence of broker replies, the sequence returned by the batch
`get` has length at most `num`, and the body of the loop runs at most `num` times. -/
theorem get_length_le_count (c : Client) (queue_name : String) (num : Int) (no_ack : Bool)
    (lib : Nat → GetAnswers) (h0 : 0 ≤ num) (h1 : num ≤ 2147483647) :
    ((get c queue_name num no_ack lib).ret.length : Int) ≤ num ∧
    (loopTurns (get c queue_name num no_ack lib).calls : Int) ≤ num := by
  have hu := unsigned_of_nonneg num h0 h1
  have hle := leadingCount_le (fun i => turnDelivers (lib i)) (num % 4294967296).toNat
  rw [get_eq]
  simp only [List.length_map, List.length_range, loopTurns_append, loopTurns_flatMap_range]
  unfold deliveredCount at *
  constructor
  · omega
  · split
    · rw [loopTurns_stopping]; omega
    · simp [loopTurns]; omega

/-- C6, amended, at the count 2 on a queue holding three messages. -/
theorem get_length_le_count_witness :
    ((0 : Int) ≤ 2 ∧ (2 : Int) ≤ 2147483647) ∧
    ((get (Client.mk "localhost" 5672 "guest" "guest" 7 1 ⟨[]⟩) "orders-q" 2 false
        (queueHolding [(1, "order-1"), (2, "order-2"), (3, "order-3")])).ret.length : Int) ≤ 2 ∧
    (loopTurns (get (Client.mk "localhost" 5672 "guest" "guest" 7 1 ⟨[]⟩) "orders-q" 2 false
        (queueHolding [(1, "order-1"), (2, "order-2"), (3, "order-3")])).calls : Int) ≤ 2 :=
  ⟨by decide, get_length_le_count (Client.mk "localhost" 5672 "guest" "guest" 7 1 ⟨[]⟩)
    "orders-q" 2 false (queueHolding [(1, "order-1"), (2, "order-2"), (3, "order-3")])
    (by decide) (by decide)⟩


theorem turnDelivers_eq_false_iff (a : GetAnswers) :
    turnDelivers a = false ↔
      (errorMsg a.amqp_basic_get "Get message" < 0 ∨
        a.amqp_basic_get.reply_id = AMQP_BASIC_GET_EMPTY_METHOD ∨
        (a.amqp_basic_get.reply_id ≠ AMQP_BASIC_GET_OK_METHOD ∧
          a.amqp_basic_get.reply_id ≠ AMQP_BASIC_GET_EMPTY_METHOD) ∨
        errorMsg a.amqp_read_message "Read message" < 0) := by
  have hne : ¬ AMQP_BASIC_GET_OK_METHOD = AMQP_BASIC_GET_EMPTY_METHOD := by decide
  unfold turnDelivers
  by_cases h1 : errorMsg a.amqp_basic_get "Get message" < 0 <;>
  by_cases h2 : a.amqp_basic_get.reply_id = AMQP_BASIC_GET_OK_METHOD <;>
  by_cases h3 : errorMsg a.amqp_read_message "Read message" < 0 <;>
  simp [h1, h2, h3, hne]
  all_goals exact em _

theorem toStdString_data (b : amqp_bytes_t) :
    (toStdString b).data = (List.range b.len).map b.bytes := rfl

theorem map_getD_range (l : List Char) (d : Char) :
    (List.range l.length).map (fun k => l.getD k d) = l := by
  apply List.ext_getElem
  · simp
  · intro n h1 h2
    simp [List.getD, List.getElem?_eq_getElem h2]

theorem queueHolding_delivers (msgs : List (Nat × String)) (i : Nat) :
    turnDelivers (queueHolding msgs i) = decide (i < msgs.length) := by
  unfold queueHolding
  by_cases h : i < msgs.length
  · rw [List.get?_eq_get h]
    simp [turnDelivers, errorMsg_eq, h]
  · rw [List.get?_eq_none.2 (by omega)]
    simp [turnDelivers, errorMsg_eq, h, AMQP_BASIC_GET_EMPTY_METHOD, AMQP_BASIC_GET_OK_METHOD]

theorem queueHolding_body (msgs : List (Nat × String)) (i : Nat) (h : i < msgs.length) :
    toStdString (queueHolding msgs i).amqp_msg_body = (msgs.get ⟨i, h⟩).2 := by
  unfold queueHolding
  rw [List.get?_eq_get h]
  simp only [toStdString, amqp_cstring_bytes]
  have := map_getD_range (msgs.get ⟨i, h⟩).2.data (Char.ofNat 0)
  rw [String.length]
  rw [this]

theorem leadingCount_lt (m : Nat) : ∀ n, leadingCount (fun i => decide (i < m)) n = min n m
  | 0 => by simp [leadingCount]
  | n + 1 => by
    rw [leadingCount, leadingCount_lt m n]
    by_cases h : n < m
    · have h1 : min n m = n := by omega
      have h2 : min (n + 1) m = n + 1 := by omega
      simp [h, h1, h2]
    · have h1 : min n m = m := by omega
      have h2 : min (n + 1) m = m := by omega
      simp [h, h1, h2]


theorem get_queueHolding (c : Client) (queue_name : String) (num : Int) (no_ack : Bool)
    (msgs : List (Nat × String)) :
    (get c queue_name num no_ack (queueHolding msgs)).ret
      = (msgs.take (num % 4294967296).toNat).map Prod.snd := by
  rw [get_eq]
  simp only [deliveredCount, queueHolding_delivers, leadingCount_lt]
  apply List.ext_getElem
  · simp
  · intro n h1 h2
    simp only [List.length_map, List.length_range, List.length_take] at h1 h2
    have hn : n < msgs.length := by omega
    simp only [List.getElem_map, List.getElem_range, List.getElem_take]
    rw [queueHolding_body msgs n hn]
    rfl

/-- C7: for every count `num` with `0 ≤ num ≤ INT_MAX` and every sequence of library
answers, `get` returns exactly the bodies of the first `k` polled messages in poll
order, each the bytes `0 .. len - 1` of the message read, where `k` is the number of
turns before the first one that stops the loop, capped by `num`: `k ≤ num`, each of the
first `k` turns delivers, and when `k < num` turn `k` has a poll classified as failure,
or answers queue-empty, or answers an unexpected reply id, or has a failed read.  A
queue holding the messages `msgs` yields the payloads of the first `num` of them, so all
of them when it holds fewer than `num`; a queue holding "order-1", "order-2", "order-3"
yields exactly that list for the count 3. -/
theorem get_returns_delivered_bodies (c : Client) (queue_name : String) (num : Int)
    (no_ack : Bool) (lib : Nat → GetAnswers) (h0 : 0 ≤ num) (h1 : num ≤ 2147483647) :
    (get c queue_name num no_ack lib).ret
      = (List.range (deliveredCount num lib)).map
          (fun i => toStdString (lib i).amqp_msg_body) ∧
    (∀ b : amqp_bytes_t, (toStdString b).data = (List.range b.len).map b.bytes) ∧
    ((deliveredCount num lib : Int) ≤ num) ∧
    (∀ i, i < deliveredCount num lib →
      ¬ errorMsg (lib i).amqp_basic_get "Get message" < 0 ∧
      (lib i).amqp_basic_get.reply_id = AMQP_BASIC_GET_OK_METHOD ∧
      ¬ errorMsg (lib i).amqp_read_message "Read message" < 0) ∧
    ((deliveredCount num lib : Int) < num →
      (errorMsg (lib (deliveredCount num lib)).amqp_basic_get "Get message" < 0 ∨
        (lib (deliveredCount num lib)).amqp_basic_get.reply_id
          = AMQP_BASIC_GET_EMPTY_METHOD ∨
        ((lib (deliveredCount num lib)).amqp_basic_get.reply_id
            ≠ AMQP_BASIC_GET_OK_METHOD ∧
          (lib (deliveredCount num lib)).amqp_basic_get.reply_id
            ≠ AMQP_BASIC_GET_EMPTY_METHOD) ∨
        errorMsg (lib (deliveredCount num lib)).amqp_read_message "Read message" < 0)) ∧
    (∀ msgs : List (Nat × String),
      (get c queue_name num no_ack (queueHolding msgs)).ret
        = (msgs.take num.toNat).map Prod.snd) ∧
    (∀ msgs : List (Nat × String), (msgs.length : Int) < num →
      (get c queue_name num no_ack (queueHolding msgs)).ret = msgs.map Prod.snd) ∧
    (∀ t1 t2 t3 : Nat,
      (get c queue_name 3 no_ack
          (queueHolding [(t1, "order-1"), (t2, "order-2"), (t3, "order-3")])).ret
        = ["order-1", "order-2", "order-3"]) := by
  have hu := unsigned_of_nonneg num h0 h1
  have hu2 : (num % 4294967296).toNat = num.toNat := by omega
  have hle := leadingCount_le (fun i => turnDelivers (lib i)) (num % 4294967296).toNat
  refine ⟨by rw [get_eq], toStdString_data, ?_, ?_, ?_, ?_, ?_, ?_⟩
  · unfold deliveredCount
    omega
  · intro i hi
    have := leadingCount_holds (fun i => turnDelivers (lib i)) _ i hi
    simpa [turnDelivers, and_assoc] using this
  · intro hlt
    apply (turnDelivers_eq_false_iff _).1
    apply leadingCount_stops (fun i => turnDelivers (lib i)) (num % 4294967296).toNat
    unfold deliveredCount at hlt
    omega
  · intro msgs
    rw [get_queueHolding, hu2]
  · intro msgs hlt
    rw [get_queueHolding, List.take_of_length_le (by omega)]
  · intro t1 t2 t3
    rw [get_queueHolding]
    rfl

/-- C7 at the count 5 on a queue holding three messages: all three come back. -/
theorem get_returns_delivered_bodies_witness :
    ((0 : Int) ≤ 5 ∧ (5 : Int) ≤ 2147483647) ∧
    (get (Client.mk "localhost" 5672 "guest" "guest" 7 1 ⟨[]⟩) "orders-q" 5 true
        (queueHolding [(1, "order-1"), (2, "order-2"), (3, "order-3")])).ret
      = ["order-1", "order-2", "order-3"] :=
  ⟨by decide,
   ((get_returns_delivered_bodies (Client.mk "localhost" 5672 "guest" "guest" 7 1 ⟨[]⟩)
      "orders-q" 5 true (queueHolding [(1, "order-1"), (2, "order-2"), (3, "order-3")])
      (by decide) (by decide)).2.2.2.2.2.2.1
      [(1, "order-1"), (2, "order-2"), (3, "order-3")] (by decide))⟩

/-- C10: in the batch `get` the primitives invoked are, for each returned message in
order, the poll, the read and, when `no_ack` is false, one acknowledgement carrying the
delivery tag of that same poll, followed by the primitives of the turn that stopped the
loop, if one did, which contain no acknowledgement.  So with `no_ack` false the
acknowledged tags are the delivery tags of the returned messages in order, one each,
and with `no_ack` true nothing is acknowledged. -/
theorem get_acknowledges_each_returned (c : Client) (queue_name : String) (num : Int)
    (no_ack : Bool) (lib : Nat → GetAnswers) :
    (get c queue_name num no_ack lib).ret
      = (List.range (deliveredCount num lib)).map
          (fun i => toStdString (lib i).amqp_msg_body) ∧
    (get c queue_name num no_ack lib).ret.length = deliveredCount num lib ∧
    (get c queue_name num no_ack lib).calls
      = (List.range (deliveredCount num lib)).flatMap
            (fun i => deliveringTurnCalls c queue_name no_ack (lib i)) ++
          (if deliveredCount num lib < (num % 4294967296).toNat then
            stoppingTurnCalls c queue_name no_ack (lib (deliveredCount num lib))
           else []) ∧
    ackedTags (get c queue_name num no_ack lib).calls
      = (if no_ack = true then []
         else (List.range (deliveredCount num lib)).map
          (fun i => (lib i).amqp_basic_get.decoded_delivery_tag)) ∧
    (∀ a : GetAnswers, deliveringTurnCalls c queue_name false a
      = [Call.amqp_basic_get c.m_conn c.m_channel queue_name false,
          Call.amqp_read_message c.m_conn c.m_channel,
          Call.amqp_basic_ack c.m_conn c.m_channel a.amqp_basic_get.decoded_delivery_tag]) ∧
    (∀ a : GetAnswers, deliveringTurnCalls c queue_name true a
      = [Call.amqp_basic_get c.m_conn c.m_channel queue_name true,
          Call.amqp_read_message c.m_conn c.m_channel]) ∧
    (∀ a : GetAnswers, ackedTags (stoppingTurnCalls c queue_name no_ack a) = []) := by
  rw [get_eq]
  refine ⟨rfl, by simp, rfl, ?_, fun a => rfl, fun a => rfl,
    ackedTags_stopping c queue_name no_ack⟩
  have hstop : ackedTags (if deliveredCount num lib < (num % 4294967296).toNat then
      stoppingTurnCalls c queue_name no_ack (lib (deliveredCount num lib)) else []) = [] := by
    split
    · exact ackedTags_stopping c queue_name no_ack _
    · rfl
  rw [ackedTags_append, ackedTags_flatMap_range, hstop, List.append_nil]

/-! ## `consume_listen` and `consume` -/

theorem receiverStep_inv (queue_name : String) (no_ack : Bool) (lib : ListenLib)
    (initial : List String) (s : Listening) (steps : Nat)
    (h : ListeningInv lib initial s steps) :
    ListeningInv lib initial (receiverStep queue_name no_ack lib s) (steps + 1) := by
  obtain ⟨hpc, hst⟩ := h
  cases steps with
  | zero =>
    have hpc0 : s.pc = ReceiverPc.setup := by simpa [pcAfter] using hpc
    unfold receiverStep
    rw [hpc0]
    by_cases hn : lib.amqp_basic_consume = nullptr
    · simp only [hn, if_true]
      refine ⟨by simp [pcAfter, hn], ?_⟩
      simpa [deliveredAfter, hn] using hst
    · simp only [hn, if_false]
      refine ⟨by simp [pcAfter, hn, leadingCount], ?_⟩
      simpa [deliveredAfter, hn, leadingCount] using hst
  | succ m =>
    by_cases hn : lib.amqp_basic_consume = nullptr
    · have hpc0 : s.pc = ReceiverPc.exited := by simpa [pcAfter, hn] using hpc
      unfold receiverStep
      rw [hpc0]
      refine ⟨by simpa [pcAfter, hn] using hpc0, ?_⟩
      simpa [deliveredAfter, hn] using hst
    · have hle := leadingCount_le (fun i => waitDelivers (lib.waits i)) m
      by_cases hall : leadingCount (fun i => waitDelivers (lib.waits i)) m = m
      · have hpc0 : s.pc = ReceiverPc.waiting m := by simpa [pcAfter, hn, hall] using hpc
        unfold receiverStep
        rw [hpc0]
        by_cases hw : waitDelivers (lib.waits m) = true
        · have hw1 : ¬ errorMsg (lib.waits m).amqp_consume_message "Consume message" < 0 := by
            simpa [waitDelivers] using hw
          have hnext : leadingCount (fun i => waitDelivers (lib.waits i)) (m + 1) = m + 1 := by
            rw [leadingCount]; simp [hall, hw]
          simp only [hw1, if_false]
          refine ⟨by simp [pcAfter, hn, hnext], ?_⟩
          simp only [deliveredAfter, hn, if_false, Nat.add_sub_cancel, hnext, hall,
            deliveredBodies, InternalQueue.enqueue] at hst ⊢
          rw [List.range_succ, List.map_append, ← List.append_assoc, ← List.append_assoc, hst]
          simp
        · have hw1 : errorMsg (lib.waits m).amqp_consume_message "Consume message" < 0 := by
            simpa [waitDelivers] using hw
          have hnext : leadingCount (fun i => waitDelivers (lib.waits i)) (m + 1) = m := by
            rw [leadingCount]; simp [hall, hw]
          simp only [hw1, if_true]
          refine ⟨by simp [pcAfter, hn, hnext], ?_⟩
          simpa [deliveredAfter, hn, hnext, hall] using hst
      · have hpc0 : s.pc = ReceiverPc.exited := by simpa [pcAfter, hn, hall] using hpc
        have hnext : leadingCount (fun i => waitDelivers (lib.waits i)) (m + 1)
            = leadingCount (fun i => waitDelivers (lib.waits i)) m := by
          rw [leadingCount]; simp [hall]
        unfold receiverStep
        rw [hpc0]
        refine ⟨?_, ?_⟩
        · simp only [hpc0, pcAfter, hn, if_false, Nat.add_sub_cancel, hnext]
          have : ¬ leadingCount (fun i => waitDelivers (lib.waits i)) m = m + 1 := by omega
          simp [this]
        · simpa [deliveredAfter, hn, hnext] using hst

theorem consumerStep_inv (queue_name : String) (no_ack : Bool) (lib : ListenLib)
    (initial : List String) (s : Listening) (steps : Nat)
    (h : ListeningInv lib initial s steps) :
    ListeningInv lib initial (Listening.step queue_name no_ack lib s Turn.consumer) steps := by
  obtain ⟨hpc, hst⟩ := h
  unfold Listening.step consume InternalQueue.dequeue
  cases hq : s.client.r_store.items with
  | nil => exact ⟨hpc, hst⟩
  | cons x rest =>
    refine ⟨hpc, ?_⟩
    rw [hq] at hst
    simpa using hst

theorem run_inv (queue_name : String) (no_ack : Bool) (lib : ListenLib)
    (initial : List String) :
    ∀ (schedule : List Turn) (s : Listening) (steps : Nat),
      ListeningInv lib initial s steps →
      ListeningInv lib initial (Listening.run queue_name no_ack lib s schedule)
        (steps + schedule.count Turn.receiver)
  | [], s, steps, h => by simpa [Listening.run] using h
  | Turn.receiver :: rest, s, steps, h => by
    have h1 := receiverStep_inv queue_name no_ack lib initial s steps h
    have h2 := run_inv queue_name no_ack lib initial rest _ _ h1
    simp only [List.count_cons_self, Listening.run, List.foldl_cons, Listening.step] at h2 ⊢
    rw [Nat.add_comm (List.count _ _) 1, ← Nat.add_assoc]
    exact h2
  | Turn.consumer :: rest, s, steps, h => by
    have h1 := consumerStep_inv queue_name no_ack lib initial s steps h
    have h2 := run_inv queue_name no_ack lib initial rest _ _ h1
    simpa [Listening.run, List.count_cons] using h2


theorem run_exited (queue_name : String) (no_ack : Bool) (lib : ListenLib) :
    ∀ (more : List Turn) (s : Listening), s.pc = ReceiverPc.exited →
      (Listening.run queue_name no_ack lib s more).pc = ReceiverPc.exited ∧
      (Listening.run queue_name no_ack lib s more).consumed ++
          (Listening.run queue_name no_ack lib s more).client.r_store.items
        = s.consumed ++ s.client.r_store.items ∧
      (Listening.run queue_name no_ack lib s more).calls = s.calls
  | [], s, h => ⟨h, rfl, rfl⟩
  | Turn.receiver :: rest, s, h => by
    have hs : receiverStep queue_name no_ack lib s = s := by
      unfold receiverStep
      rw [h]
    simp only [Listening.run, List.foldl_cons, Listening.step, hs]
    exact run_exited queue_name no_ack lib rest s h
  | Turn.consumer :: rest, s, h => by
    simp only [Listening.run, List.foldl_cons]
    cases hq : s.client.r_store.items with
    | nil =>
      have hs : Listening.step queue_name no_ack lib s Turn.consumer = s := by
        simp [Listening.step, consume, InternalQueue.dequeue, hq]
      rw [hs, ← hq]
      exact run_exited queue_name no_ack lib rest s h
    | cons x xs =>
      have hs : Listening.step queue_name no_ack lib s Turn.consumer
          = { s with client := { s.client with r_store := ⟨xs⟩ },
                     consumed := s.consumed ++ [x] } := by
        simp [Listening.step, consume, InternalQueue.dequeue, hq]
      rw [hs]
      have := run_exited queue_name no_ack lib rest
        { s with client := { s.client with r_store := ⟨xs⟩ },
                 consumed := s.consumed ++ [x] } h
      simpa [Listening.run] using this

theorem consumeTimes_fifo :
    ∀ (msgs rest : List String) (c : Client), c.r_store.items = msgs ++ rest →
      consumeTimes msgs.length c = some (msgs, { c with r_store := ⟨rest⟩ })
  | [], rest, c, h => by
    cases c with
    | mk a b d e f g q =>
      cases q with
      | mk items =>
        simp only [List.nil_append] at h
        subst h
        rfl
  | m :: msgs, rest, c, h => by
    have ih := consumeTimes_fifo msgs rest { c with r_store := ⟨msgs ++ rest⟩ } rfl
    simp only [List.length_cons, consumeTimes, consume, InternalQueue.dequeue, h,
      List.cons_append, ih]

/-- C9: along any interleaving of receiver steps and `consume()` calls, and for any
wait outcomes, the messages handed out by `consume()` followed by the content of the
store are the initial content followed by the bodies of the first `d` deliveries, in
delivery order and once each, where `d` counts the waits made before the first one
classified as failure: each of the first `d` waits was classified as success, `d` never
passes the index of a failed wait, and `d` is 0 when the consumer could not be created.
The receiver is past its `catch` once a failed wait or the failed creation has been
executed; from then on it stays there, invokes nothing and enqueues nothing.  On a
store holding `msgs` in front, `msgs.length` calls of `consume()` hand out `msgs` in
order. -/
theorem receiver_enqueues_in_delivery_order (c : Client) (queue_name : String)
    (no_ack : Bool) (lib : ListenLib) (schedule : List Turn) :
    ((Listening.run queue_name no_ack lib (consume_listen c) schedule).consumed ++
        (Listening.run queue_name no_ack lib (consume_listen c) schedule).client.r_store.items
      = c.r_store.items ++
          (List.range (deliveredAfter lib (schedule.count Turn.receiver))).map
            (fun i => toStdString (lib.waits i).envelope_message_body)) ∧
    (∀ i, i < deliveredAfter lib (schedule.count Turn.receiver) →
      ¬ errorMsg (lib.waits i).amqp_consume_message "Consume message" < 0) ∧
    (∀ f, errorMsg (lib.waits f).amqp_consume_message "Consume message" < 0 →
      deliveredAfter lib (schedule.count Turn.receiver) ≤ f) ∧
    (lib.amqp_basic_consume = nullptr →
      deliveredAfter lib (schedule.count Turn.receiver) = 0) ∧
    (lib.amqp_basic_consume ≠ nullptr →
      (∀ i, i + 1 < schedule.count Turn.receiver →
        ¬ errorMsg (lib.waits i).amqp_consume_message "Consume message" < 0) →
      deliveredAfter lib (schedule.count Turn.receiver) = schedule.count Turn.receiver - 1) ∧
    (∀ f, errorMsg (lib.waits f).amqp_consume_message "Consume message" < 0 →
      f + 2 ≤ schedule.count Turn.receiver →
      (Listening.run queue_name no_ack lib (consume_listen c) schedule).pc
        = ReceiverPc.exited) ∧
    (lib.amqp_basic_consume = nullptr → 1 ≤ schedule.count Turn.receiver →
      (Listening.run queue_name no_ack lib (consume_listen c) schedule).pc
        = ReceiverPc.exited) ∧
    ((Listening.run queue_name no_ack lib (consume_listen c) schedule).pc
        = ReceiverPc.exited →
      ∀ more : List Turn,
        (Listening.run queue_name no_ack lib
          (Listening.run queue_name no_ack lib (consume_listen c) schedule) more).pc
          = ReceiverPc.exited ∧
        (Listening.run queue_name no_ack lib
          (Listening.run queue_name no_ack lib (consume_listen c) schedule) more).consumed ++
          (Listening.run queue_name no_ack lib
            (Listening.run queue_name no_ack lib (consume_listen c) schedule)
              more).client.r_store.items
          = (Listening.run queue_name no_ack lib (consume_listen c) schedule).consumed ++
            (Listening.run queue_name no_ack lib (consume_listen c)
              schedule).client.r_store.items ∧
        (Listening.run queue_name no_ack lib
          (Listening.run queue_name no_ack lib (consume_listen c) schedule) more).calls
          = (Listening.run queue_name no_ack lib (consume_listen c) schedule).calls) ∧
    (∀ (msgs rest : List String) (c1 : Client), c1.r_store.items = msgs ++ rest →
      consumeTimes msgs.length c1 = some (msgs, { c1 with r_store := ⟨rest⟩ })) := by
  have hinit : ListeningInv lib c.r_store.items (consume_listen c) 0 := by
    refine ⟨rfl, ?_⟩
    simp [consume_listen, deliveredAfter, deliveredBodies, leadingCount]
  have hinv := run_inv queue_name no_ack lib c.r_store.items schedule _ 0 hinit
  rw [Nat.zero_add] at hinv
  obtain ⟨hpc, hst⟩ := hinv
  have hholds : ∀ i, i < deliveredAfter lib (schedule.count Turn.receiver) →
      ¬ errorMsg (lib.waits i).amqp_consume_message "Consume message" < 0 := by
    intro i hi
    unfold deliveredAfter at hi
    split at hi
    · omega
    · have := leadingCount_holds (fun i => waitDelivers (lib.waits i)) _ i hi
      simpa [waitDelivers] using this
  refine ⟨hst, hholds, ?_, ?_, ?_, ?_, ?_, ?_, consumeTimes_fifo⟩
  · intro f hf
    by_contra hlt
    exact hholds f (by omega) hf
  · intro hn
    simp [deliveredAfter, hn]
  · intro hn hall
    simp only [deliveredAfter, hn, if_false]
    have hle := leadingCount_le (fun i => waitDelivers (lib.waits i))
      (schedule.count Turn.receiver - 1)
    by_contra hne
    have hstop := leadingCount_stops (fun i => waitDelivers (lib.waits i))
      (schedule.count Turn.receiver - 1) (by omega)
    have hok := hall (leadingCount (fun i => waitDelivers (lib.waits i))
      (schedule.count Turn.receiver - 1)) (by omega)
    have hdel : waitDelivers (lib.waits (leadingCount (fun i => waitDelivers (lib.waits i))
        (schedule.count Turn.receiver - 1))) = true := by
      simpa [waitDelivers] using hok
    exact Bool.noConfusion (hdel.symm.trans hstop)
  · intro f hf ht
    rw [hpc]
    unfold pcAfter
    rw [if_neg (by omega)]
    split
    · rfl
    · split
      · rename_i hall
        have := leadingCount_holds (fun i => waitDelivers (lib.waits i))
          (schedule.count Turn.receiver - 1) f (by omega)
        simp [waitDelivers] at this
        omega
      · rfl
  · intro hn ht
    rw [hpc]
    unfold pcAfter
    rw [if_neg (by omega), if_pos hn]
  · intro hex more
    exact run_exited queue_name no_ack lib more _ hex

/-- C9 at a broker that delivers two messages and then times out, under a schedule
that interleaves five receiver steps with four `consume()` calls. -/
theorem receiver_enqueues_in_delivery_order_witness :
    (Listening.run "orders-q" false twoDeliveriesThenTimeout
        (consume_listen (Client.mk "localhost" 5672 "guest" "guest" 7 1 ⟨[]⟩))
        [Turn.receiver, Turn.consumer, Turn.receiver, Turn.receiver, Turn.consumer,
          Turn.receiver, Turn.consumer, Turn.receiver, Turn.consumer]).consumed
      = ["M1", "M2"] ∧
    (Listening.run "orders-q" false twoDeliveriesThenTimeout
        (consume_listen (Client.mk "localhost" 5672 "guest" "guest" 7 1 ⟨[]⟩))
        [Turn.receiver, Turn.consumer, Turn.receiver, Turn.receiver, Turn.consumer,
          Turn.receiver, Turn.consumer, Turn.receiver, Turn.consumer]).pc
      = ReceiverPc.exited ∧
    (Listening.run "orders-q" false twoDeliveriesThenTimeout
        (consume_listen (Client.mk "localhost" 5672 "guest" "guest" 7 1 ⟨[]⟩))
        [Turn.receiver, Turn.consumer, Turn.receiver, Turn.receiver, Turn.consumer,
          Turn.receiver, Turn.consumer, Turn.receiver, Turn.consumer]).calls
      = [Call.amqp_basic_consume 7 1 "orders-q" false,
          Call.amqp_consume_message 7, Call.amqp_basic_ack 7 1 1, Call.amqp_destroy_envelope,
          Call.amqp_consume_message 7, Call.amqp_basic_ack 7 1 2, Call.amqp_destroy_envelope,
          Call.amqp_consume_message 7] ∧
    deliveredAfter twoDeliveriesThenTimeout 5 = 2 ∧
    (Listening.run "orders-q" false twoDeliveriesThenTimeout
        (consume_listen (Client.mk "localhost" 5672 "guest" "guest" 7 1 ⟨[]⟩))
        [Turn.receiver, Turn.consumer, Turn.receiver, Turn.receiver, Turn.consumer,
          Turn.receiver, Turn.consumer, Turn.receiver, Turn.consumer]).pc
      = ReceiverPc.exited :=
  ⟨by decide, by decide, by decide, by decide,
   (receiver_enqueues_in_delivery_order (Client.mk "localhost" 5672 "guest" "guest" 7 1 ⟨[]⟩)
      "orders-q" false twoDeliveriesThenTimeout
      [Turn.receiver, Turn.consumer, Turn.receiver, Turn.receiver, Turn.consumer,
        Turn.receiver, Turn.consumer, Turn.receiver, Turn.consumer]).2.2.2.2.2.1 2
      (by decide) (by decide)⟩

end RabbitMqClient
